import Mathlib

/-!
Shallow embedding of the queryparser repository (MongoDB-style filter JSON
compiled to parameterized SQL via squirrel, and to elastic boolean queries).

Source files embedded: operators.go (filter/options data model, parser,
validation), sql.go (SqlBuilder over squirrel), elastic.go (ElasticBuilder).
JSON decoding (encoding/json) and Go reflection are external collaborators:
a decoded JSON object is represented as an association list in one concrete
iteration order (Go map iteration order is unspecified), and a reflected
model is represented by its field/tag table.
-/

namespace QP

/-- A decoded JSON value (the result of Go `encoding/json` unmarshalling into
`interface{}`).  Numbers are represented abstractly by `Int`; none of the
embedded code computes with numeric values. -/
inductive JValue where
  | null : JValue
  | bool (b : Bool) : JValue
  | num (n : Int) : JValue
  | str (s : String) : JValue
  | arr (elems : List JValue) : JValue
  | obj (fields : List (String × JValue)) : JValue
deriving Repr

/-- Go map lookup `m[k]` on the association-list representation of a decoded
JSON object (keys of a Go map are unique). -/
def lookupVal (k : String) : List (String × JValue) → Option JValue
  | [] => none
  | (k1, v) :: rest => if k1 = k then some v else lookupVal k rest

/-- Association-list lookup for string-valued maps (Go `map[string]string`). -/
def lookupStr (m : List (String × String)) (k : String) : Option String :=
  match m with
  | [] => none
  | (k1, v) :: rest => if k1 = k then some v else lookupStr rest k

/-- `Operator` from operators.go: a MongoDB-style operator keyword.  In Go it
is a string type, so any string is an `Operator`. -/
abbrev Operator := String

def OpEq : Operator := "$eq"
def OpNe : Operator := "$ne"
def OpLt : Operator := "$lt"
def OpLte : Operator := "$lte"
def OpGt : Operator := "$gt"
def OpGte : Operator := "$gte"
def OpIn : Operator := "$in"
def OpNin : Operator := "$nin"
def OpAnd : Operator := "$and"
def OpOr : Operator := "$or"
/-- `OpLike` is referenced by sql.go (`case OpLike`) and the tests
(`$like`); its constant declaration is in the repository but outside the
provided operators.go snapshot.  Its value is forced by the tests' JSON. -/
def OpLike : Operator := "$like"

/-- `Filter` from operators.go: one parsed condition.  The `Filters` field
(nested sub-filters of an `$or`/`$and` node) is used by elastic.go and the
tests; the parser itself always leaves it empty. -/
inductive Filter where
  | mk (Field : String) (Operator : Operator) (Value : JValue) (Filters : List Filter)
deriving Repr

def Filter.Field : Filter → String
  | .mk f _ _ _ => f

def Filter.Operator : Filter → Operator
  | .mk _ op _ _ => op

def Filter.Value : Filter → JValue
  | .mk _ _ v _ => v

def Filter.Filters : Filter → List Filter
  | .mk _ _ _ fs => fs

/-- `SortDirection` from operators.go (a Go string type). -/
abbrev SortDirection := String

def SortAsc : SortDirection := "asc"
def SortDesc : SortDirection := "desc"

/-- `QueryOptions` from operators.go (Go fields `Sort`, `Limit`, `Offset`;
lower-cased here because `Sort` is reserved in Lean).  `Sort` is a Go map;
it is represented here in one concrete iteration order. -/
structure QueryOptions where
  sort : List (String × SortDirection) := []
  limit : Option Int := none
  offset : Option Int := none
deriving Repr

/-- The filters contributed by one key/value entry of a (non-`$or`) filter
object: the body of the `for field, value := range filter` loop of
`parseFilters` in operators.go. -/
def entryFilters (entry : String × JValue) : List Filter :=
  if entry.1 = OpOr ∨ entry.1 = OpAnd then []
  else
    match entry.2 with
    | JValue.obj ops => ops.map (fun opVal => Filter.mk entry.1 opVal.1 opVal.2 [])
    | v => [Filter.mk entry.1 OpEq v []]

theorem lookupVal_sizeOf {k : String} :
    ∀ {l : List (String × JValue)} {v : JValue}, lookupVal k l = some v → sizeOf v < sizeOf l := by
  intro l
  induction l with
  | nil => intro v h; simp [lookupVal] at h
  | cons hd tl ih =>
    intro v h
    obtain ⟨a, b⟩ := hd
    simp only [lookupVal] at h
    split at h
    · cases h
      simp only [List.cons.sizeOf_spec, Prod.mk.sizeOf_spec]
      omega
    · have := ih h
      simp only [List.cons.sizeOf_spec, Prod.mk.sizeOf_spec]
      omega

mutual

/-- `parseFilters` from operators.go: recursively parses a decoded filter
object (association list) into `Filter` values.  If the object has an `$or`
key whose value is an array, ONLY that array is processed, each object
element being parsed recursively and its results appended (flattened) to a
single list; otherwise each non-combinator entry contributes filters via
`entryFilters` and `$and`/`$or` entries are skipped. -/
def parseFilters (filter : List (String × JValue)) : Except String (List Filter) :=
  match h : lookupVal "$or" filter with
  | some (JValue.arr orFilters) => parseOrList orFilters
  | _ => Except.ok (filter.flatMap entryFilters)
termination_by sizeOf filter
decreasing_by
  have h1 := lookupVal_sizeOf h
  simp only [JValue.arr.sizeOf_spec] at h1
  omega

/-- The loop body of the `$or` branch of `parseFilters`: each element that is
an object is parsed recursively and its filters are appended; non-object
elements are skipped. -/
def parseOrList (l : List JValue) : Except String (List Filter) :=
  match l with
  | [] => Except.ok []
  | f :: rest =>
    match f with
    | JValue.obj subFilter =>
      match parseFilters subFilter with
      | Except.error e => Except.error e
      | Except.ok subFilters =>
        match parseOrList rest with
        | Except.error e => Except.error e
        | Except.ok restFilters => Except.ok (subFilters ++ restFilters)
    | _ => parseOrList rest
termination_by sizeOf l
decreasing_by
  · simp only [List.cons.sizeOf_spec, JValue.obj.sizeOf_spec]
    omega
  · simp only [List.cons.sizeOf_spec]
    omega
  · simp only [List.cons.sizeOf_spec]
    omega

end

/-- One field of a Go model struct, as seen by reflection: the Go field name
and the raw `json:"..."` and `db:"..."` tag strings (`""` when the tag is
absent). -/
structure GoField where
  name : String
  jsonTag : String
  dbTag : String
deriving Repr

/-- A Go value passed as `model`: either a struct (with its reflected
fields) or a non-struct value (whose reflect.Kind prints as `kindStr`). -/
structure GoModel where
  isStruct : Bool
  kindStr : String
  fields : List GoField
deriving Repr

/-- First comma-separated part of a struct tag (`strings.Split(tag, ",")[0]`). -/
def tagHead (tag : String) : String :=
  String.mk (tag.data.takeWhile (fun c => c ≠ ','))

/-- The loop of `getJSONTags` in operators.go: field name → JSON name for
every field with a non-empty `json` tag whose name part is not `-`. -/
def jsonTagsList : List GoField → List (String × String)
  | [] => []
  | fld :: rest =>
    if fld.jsonTag = "" then jsonTagsList rest
    else
      let jsonName := tagHead fld.jsonTag
      if jsonName = "-" then jsonTagsList rest
      else (fld.name, jsonName) :: jsonTagsList rest

/-- `getJSONTags` from operators.go. -/
def getJSONTags (model : GoModel) : Except String (List (String × String)) :=
  if model.isStruct then Except.ok (jsonTagsList model.fields)
  else Except.error ("expected struct or pointer to struct, got " ++ model.kindStr)

/-- Modelled from the spec: `getDBTags` is called by sql.go but its
definition is not among the provided sources.  Per the Schema Reflector
contract (spec section 4.3) it mirrors `getJSONTags` over the `db` struct
tag: field name → storage name for every field carrying a `db` tag. -/
def dbTagsList : List GoField → List (String × String)
  | [] => []
  | fld :: rest =>
    if fld.dbTag = "" then dbTagsList rest
    else
      let dbName := tagHead fld.dbTag
      if dbName = "-" then dbTagsList rest
      else (fld.name, dbName) :: dbTagsList rest

/-- Modelled from the spec: see `dbTagsList`. -/
def getDBTags (model : GoModel) : Except String (List (String × String)) :=
  if model.isStruct then Except.ok (dbTagsList model.fields)
  else Except.error ("expected struct or pointer to struct, got " ++ model.kindStr)

/-- Membership of a field name among the VALUES of the tag map — the inner
`for _, jsonTag := range tags` search of `validateFields`. -/
def tagValuesContain (tags : List (String × String)) (fieldName : String) : Bool :=
  tags.any (fun t => t.2 = fieldName)

/-- `validateFields` from operators.go: every filter field and every sort
key must occur among the JSON tag values; the first offender produces the
error (`none` = no error). -/
def validateFields (filters : List Filter) (options : Option QueryOptions)
    (tags : List (String × String)) : Option String :=
  match filters.find? (fun f => !(tagValuesContain tags f.Field)) with
  | some f => some ("field \"" ++ f.Field ++ "\" is not a valid JSON field")
  | none =>
    match options with
    | some opts =>
      if opts.sort.length > 0 then
        match opts.sort.find? (fun s => !(tagValuesContain tags s.1)) with
        | some s => some ("field \"" ++ s.1 ++ "\" is not a valid JSON field for sorting")
        | none => none
      else none
    | none => none

/-- Join a list of strings with a separator (`strings.Join`). -/
def joinSep (sep : String) : List String → String
  | [] => ""
  | [s] => s
  | s :: rest => s ++ sep ++ joinSep sep rest

/-- The squirrel `Sqlizer` values produced by `buildCondition` in sql.go:
`squirrel.Eq`, `NotEq`, `Lt`, `LtOrEq`, `Gt`, `GtOrEq` (each a single
field/value pair here) and `squirrel.Expr` (raw SQL with `?` markers and
bound arguments). -/
inductive Cond where
  | eq (field : String) (value : JValue)
  | notEq (field : String) (value : JValue)
  | lt (field : String) (value : JValue)
  | ltOrEq (field : String) (value : JValue)
  | gt (field : String) (value : JValue)
  | gtOrEq (field : String) (value : JValue)
  | expr (sql : String) (args : List JValue)
deriving Repr

/-- Rendering of a comparison squirrel condition (`Lt`/`Gt`/... with the
given SQL operator token): squirrel rejects null and array values for
ordered comparisons, otherwise emits `field OP ?` with one argument. -/
def cmpToSql (field : String) (opTok : String) (value : JValue) :
    Except String (String × List JValue) :=
  match value with
  | JValue.null => Except.error "cannot use null with less than or greater than operators"
  | JValue.arr _ => Except.error "cannot use array or slice with comparison operators"
  | v => Except.ok (field ++ opTok ++ "?", [v])

/-- squirrel `Sqlizer.ToSql` for the conditions of `Cond`, producing raw SQL
with `?` placeholders plus the argument list.  `Eq` with an array renders as
`IN`, with null as `IS NULL`, with the empty array as the constant-false
`(1=0)`; `NotEq` dually. -/
def condToSql : Cond → Except String (String × List JValue)
  | Cond.eq field value =>
    match value with
    | JValue.null => Except.ok (field ++ " IS NULL", [])
    | JValue.arr [] => Except.ok ("(1=0)", [])
    | JValue.arr vs =>
      Except.ok (field ++ " IN (" ++ joinSep "," (vs.map (fun _ => "?")) ++ ")", vs)
    | v => Except.ok (field ++ " = ?", [v])
  | Cond.notEq field value =>
    match value with
    | JValue.null => Except.ok (field ++ " IS NOT NULL", [])
    | JValue.arr [] => Except.ok ("(1=1)", [])
    | JValue.arr vs =>
      Except.ok (field ++ " NOT IN (" ++ joinSep "," (vs.map (fun _ => "?")) ++ ")", vs)
    | v => Except.ok (field ++ " <> ?", [v])
  | Cond.lt field value => cmpToSql field " < " value
  | Cond.ltOrEq field value => cmpToSql field " <= " value
  | Cond.gt field value => cmpToSql field " > " value
  | Cond.gtOrEq field value => cmpToSql field " >= " value
  | Cond.expr sql args => Except.ok (sql, args)

/-- squirrel `And(...)`: the joined, parenthesized conjunction of a list of
conditions, concatenating their arguments in order (`conj.join` with
separator `" AND "`; the empty conjunction renders as `(1=1)`). -/
def condListToSql (conds : List Cond) : Except String (String × List JValue) :=
  match conds.mapM condToSql with
  | Except.error e => Except.error e
  | Except.ok parts =>
    match parts with
    | [] => Except.ok ("(1=1)", [])
    | _ => Except.ok ("(" ++ joinSep " AND " (parts.map (fun p => p.1)) ++ ")",
                      parts.flatMap (fun p => p.2))

/-- The state of a configured `squirrel.SelectBuilder`: the table, the
`Where` parts (each an `And` group added by one `Where` call), the
`OrderBy` clauses, and `Limit`/`Offset`. -/
structure SelectState where
  table : String
  wheres : List (List Cond) := []
  orderBys : List String := []
  limit : Option Int := none
  offset : Option Int := none
deriving Repr

/-- squirrel `PlaceholderFormat`: `Dollar` (`$1`), `Question` (`?`),
`AtP` (`@p1`). -/
inductive PlaceholderFormat where
  | dollar
  | question
  | atP
deriving Repr, DecidableEq

/-- squirrel `replacePositionalPlaceholders`: each `?` becomes the prefixed
1-based index; the escape `??` becomes a literal `?`. -/
def numberPlaceholders (pfx : String) : List Char → Nat → String
  | [], _ => ""
  | '?' :: '?' :: cs, n => "?" ++ numberPlaceholders pfx cs n
  | '?' :: cs, n => pfx ++ toString n ++ numberPlaceholders pfx cs (n + 1)
  | c :: cs, n => String.singleton c ++ numberPlaceholders pfx cs n

/-- `PlaceholderFormat.ReplacePlaceholders`: `Question` leaves the SQL
unchanged; `Dollar` and `AtP` number the `?` markers. -/
def applyFormat (fmt : PlaceholderFormat) (sql : String) : String :=
  match fmt with
  | PlaceholderFormat.question => sql
  | PlaceholderFormat.dollar => numberPlaceholders "$" sql.data 1
  | PlaceholderFormat.atP => numberPlaceholders "@p" sql.data 1

/-- Go `uint64(i)` for an `int` value (two's-complement conversion). -/
def goUint64 (i : Int) : Nat := (i % (2 ^ 64)).toNat

/-- `squirrel.SelectBuilder.ToSql` before placeholder replacement:
`SELECT * FROM table` followed by the WHERE conjunction of all `Where`
parts, the ORDER BY clauses, and LIMIT/OFFSET. -/
def selectRawSql (sb : SelectState) : Except String (String × List JValue) :=
  match sb.wheres.mapM condListToSql with
  | Except.error e => Except.error e
  | Except.ok parts =>
    let whereSql :=
      match parts with
      | [] => ""
      | _ => " WHERE " ++ joinSep " AND " (parts.map (fun p => p.1))
    let orderSql :=
      match sb.orderBys with
      | [] => ""
      | _ => " ORDER BY " ++ joinSep ", " sb.orderBys
    let limitSql :=
      match sb.limit with
      | some l => " LIMIT " ++ toString (goUint64 l)
      | none => ""
    let offsetSql :=
      match sb.offset with
      | some o => " OFFSET " ++ toString (goUint64 o)
      | none => ""
    Except.ok ("SELECT * FROM " ++ sb.table ++ whereSql ++ orderSql ++ limitSql ++ offsetSql,
               parts.flatMap (fun p => p.2))

def selectQuery : Int := 0
def updateQuery : Int := 1
def deleteQuery : Int := 2
def insertQuery : Int := 3

/-- `SqlBuilder` from sql.go.  The four squirrel builders are `Option`s
(`none` is the Go zero value); update/delete/insert builders carry only
their table since the code never adds clauses to them. -/
structure SqlBuilder where
  queryType : Int := 0
  selectBuilder : Option SelectState := none
  updateBuilder : Option String := none
  deleteBuilder : Option String := none
  insertBuilder : Option String := none
  placeholderFormat : PlaceholderFormat := PlaceholderFormat.dollar
deriving Repr

/-- `NewSqlBuilder` from sql.go: default `Dollar` placeholder format. -/
def NewSqlBuilder : SqlBuilder :=
  { placeholderFormat := PlaceholderFormat.dollar }

/-- `NewSqlBuilderWithPlaceholderFormat` from sql.go. -/
def NewSqlBuilderWithPlaceholderFormat (fmt : PlaceholderFormat) : SqlBuilder :=
  { placeholderFormat := fmt }

/-- `SqlBuilder.WithSelect` from sql.go: `Select("*").From(table)` with the
builder's placeholder format; sets the query type to select. -/
def SqlBuilder.WithSelect (qb : SqlBuilder) (table : String) : SqlBuilder :=
  { qb with selectBuilder := some { table := table }, queryType := selectQuery }

/-- `SqlBuilder.WithUpdate` from sql.go. -/
def SqlBuilder.WithUpdate (qb : SqlBuilder) (table : String) : SqlBuilder :=
  { qb with updateBuilder := some table, queryType := updateQuery }

/-- `SqlBuilder.WithDelete` from sql.go. -/
def SqlBuilder.WithDelete (qb : SqlBuilder) (table : String) : SqlBuilder :=
  { qb with deleteBuilder := some table, queryType := deleteQuery }

/-- `SqlBuilder.WithInsert` from sql.go. -/
def SqlBuilder.WithInsert (qb : SqlBuilder) (table : String) : SqlBuilder :=
  { qb with insertBuilder := some table, queryType := insertQuery }

/-- `SqlBuilder.SetPlaceholderFormat` from sql.go. -/
def SqlBuilder.SetPlaceholderFormat (qb : SqlBuilder) (fmt : PlaceholderFormat) : SqlBuilder :=
  { qb with placeholderFormat := fmt }

/-- `SqlBuilder.GetPlaceholderFormat` from sql.go. -/
def SqlBuilder.GetPlaceholderFormat (qb : SqlBuilder) : PlaceholderFormat :=
  qb.placeholderFormat

/-- `SqlBuilder.ToSql` from sql.go: dispatch on the query type.  A zero
(unconfigured) squirrel builder fails with squirrel's own error; an update
or insert builder configured by this package has no SET clause/values and
likewise fails in squirrel; a configured delete builder renders. -/
def SqlBuilder.ToSql (qb : SqlBuilder) : Except String (String × List JValue) :=
  if qb.queryType = selectQuery then
    match qb.selectBuilder with
    | some sb =>
      match selectRawSql sb with
      | Except.error e => Except.error e
      | Except.ok (raw, args) => Except.ok (applyFormat qb.placeholderFormat raw, args)
    | none => Except.error "select statements must have at least one result column"
  else if qb.queryType = updateQuery then
    match qb.updateBuilder with
    | some _ => Except.error "update statements must have at least one Set clause"
    | none => Except.error "update statements must specify a table"
  else if qb.queryType = deleteQuery then
    match qb.deleteBuilder with
    | some table => Except.ok (applyFormat qb.placeholderFormat ("DELETE FROM " ++ table), [])
    | none => Except.error "delete statements must specify a From table"
  else if qb.queryType = insertQuery then
    match qb.insertBuilder with
    | some _ => Except.error "insert statements must have at least one set of values or select clause"
    | none => Except.error "insert statements must specify a table"
  else Except.error "invalid query type"

/-- The field-mapping step shared by `buildCondition` and `applyOptions` in
sql.go: map a JSON field name through `jsonToDB`, falling back to the field
itself when no DB column is known for it. -/
def mappedField (jsonToDB : List (String × String)) (field : String) : String :=
  match lookupStr jsonToDB field with
  | some dbCol => dbCol
  | none => field

/-- `SqlBuilder.buildCondition` from sql.go: maps the filter field through
`jsonToDB` (falling back to the field itself) and dispatches on the
operator.  `$in`/`$nin` reuse `Eq`/`NotEq` (squirrel renders arrays as
IN/NOT IN); `$like` emits a raw case-insensitive `ILIKE` expression with the
value wrapped in `%` wildcards (the Go code's `filter.Value.(string)` type
assertion panics on a non-string value). -/
def buildCondition (filter : Filter) (jsonToDB : List (String × String)) :
    Except String Cond :=
  let dbField := mappedField jsonToDB filter.Field
  if filter.Operator = OpEq then Except.ok (Cond.eq dbField filter.Value)
  else if filter.Operator = OpNe then Except.ok (Cond.notEq dbField filter.Value)
  else if filter.Operator = OpLt then Except.ok (Cond.lt dbField filter.Value)
  else if filter.Operator = OpLte then Except.ok (Cond.ltOrEq dbField filter.Value)
  else if filter.Operator = OpGt then Except.ok (Cond.gt dbField filter.Value)
  else if filter.Operator = OpGte then Except.ok (Cond.gtOrEq dbField filter.Value)
  else if filter.Operator = OpIn then Except.ok (Cond.eq dbField filter.Value)
  else if filter.Operator = OpNin then Except.ok (Cond.notEq dbField filter.Value)
  else if filter.Operator = OpLike then
    match filter.Value with
    | JValue.str s =>
      Except.ok (Cond.expr (dbField ++ " ILIKE ?") [JValue.str ("%" ++ s ++ "%")])
    | _ => Except.error "panic: interface conversion: interface {} is not string"
  else Except.error ("unsupported operator: " ++ filter.Operator)

/-- `SqlBuilder.applySelectFilters` from sql.go: build one condition per
filter and, when nonempty, add them as a single `Where(squirrel.And(...))`
part. -/
def applySelectFilters (qb : SqlBuilder) (filters : List Filter)
    (jsonToDB : List (String × String)) : Except String SqlBuilder :=
  match filters.mapM (fun f => buildCondition f jsonToDB) with
  | Except.error e => Except.error e
  | Except.ok conditions =>
    if conditions.length > 0 then
      Except.ok { qb with
        selectBuilder := qb.selectBuilder.map (fun sb =>
          { sb with wheres := sb.wheres ++ [conditions] }) }
    else Except.ok qb

/-- The body of the sort loop of `applyOptions` in sql.go: append one ORDER
BY clause for a sort entry (storage-mapped field, `DESC` exactly when the
direction equals `SortDesc`, otherwise `ASC`). -/
def addSortClause (jsonToDB : List (String × String)) (b : SqlBuilder)
    (entry : String × SortDirection) : SqlBuilder :=
  let dbField := mappedField jsonToDB entry.1
  let clause := if entry.2 = SortDesc then dbField ++ " DESC" else dbField ++ " ASC"
  { b with selectBuilder := b.selectBuilder.map (fun sb =>
      { sb with orderBys := sb.orderBys ++ [clause] }) }

/-- `SqlBuilder.applyOptions` from sql.go: fold `addSortClause` over the
sort entries (in map-iteration order), then apply LIMIT and OFFSET. -/
def applyOptions (qb : SqlBuilder) (options : Option QueryOptions)
    (jsonToDB : List (String × String)) : Except String SqlBuilder :=
  match options with
  | none => Except.ok qb
  | some opts =>
    let qb1 :=
      if opts.sort.length > 0 then
        opts.sort.foldl (addSortClause jsonToDB) qb
      else qb
    let qb2 :=
      match opts.limit with
      | some l => { qb1 with selectBuilder := qb1.selectBuilder.map (fun sb =>
          { sb with limit := some l }) }
      | none => qb1
    let qb3 :=
      match opts.offset with
      | some o => { qb2 with selectBuilder := qb2.selectBuilder.map (fun sb =>
          { sb with offset := some o }) }
      | none => qb2
    Except.ok qb3

/-- The `jsonToDB` mapping built inside `SqlBuilder.Apply`: JSON name → DB
column name for every model field present in both tag maps. -/
def jsonToDBMap (jsonTags dbTags : List (String × String)) : List (String × String) :=
  jsonTags.flatMap (fun ft =>
    match lookupStr dbTags ft.1 with
    | some dbTag => [(ft.2, dbTag)]
    | none => [])

/-- `SqlBuilder.Apply` from sql.go: reflect the model's JSON and DB tags,
build `jsonToDB`, validate the filter and sort fields against the JSON
tags, and — only when a select builder is configured — apply the filters
and options.  For any other query type the builder is returned unchanged. -/
def SqlBuilder.Apply (qb : SqlBuilder) (filters : List Filter)
    (options : Option QueryOptions) (model : GoModel) : Except String SqlBuilder :=
  match getJSONTags model with
  | Except.error e => Except.error ("failed to get JSON tags: " ++ e)
  | Except.ok jsonTags =>
    match getDBTags model with
    | Except.error e => Except.error ("failed to get DB tags: " ++ e)
    | Except.ok dbTags =>
      let jsonToDB := jsonToDBMap jsonTags dbTags
      match validateFields filters options jsonTags with
      | some e => Except.error e
      | none =>
        match qb.selectBuilder with
        | some _ =>
          match applySelectFilters qb filters jsonToDB with
          | Except.error e => Except.error e
          | Except.ok qb2 => applyOptions qb2 options jsonToDB
        | none => Except.ok qb

/-- The full SQL pipeline exercised by the tests: configure a select
builder on `table` with placeholder format `fmt`, `Apply` the filters,
options and model, and render with `ToSql`. -/
def sqlPipeline (fmt : PlaceholderFormat) (table : String) (filters : List Filter)
    (options : Option QueryOptions) (model : GoModel) :
    Except String (String × List JValue) :=
  match (NewSqlBuilderWithPlaceholderFormat fmt).WithSelect table
      |>.Apply filters options model with
  | Except.error e => Except.error e
  | Except.ok qb => qb.ToSql

/-- An `olivere/elastic` query as built by elastic.go: term/terms/range
queries and boolean queries.  A Go `elastic.Query` interface value may be
nil, hence the `Option` in the boolean clause lists. -/
inductive ElasticQuery where
  | term (field : String) (value : JValue)
  | terms (field : String) (values : List JValue)
  | range (field : String) (cmp : String) (value : JValue)
  | boolQ (must : List (Option ElasticQuery)) (mustNot : List (Option ElasticQuery))
      (should : List (Option ElasticQuery)) (minShouldMatch : Option Int)
deriving Repr

mutual

/-- `ElasticBuilder.buildQuery` from elastic.go: `$or` and `$and` recurse
into `filter.Filters` building a bool query (should with
`MinimumNumberShouldMatch(1)`, respectively must); the comparison operators
map to term/range/terms queries (`$in`/`$nin` panic via the
`filter.Value.([]any)` type assertion when the value is not an array); any
other operator falls through the switch and returns a nil query with a nil
error. -/
def buildQuery (filter : Filter) : Except String (Option ElasticQuery) :=
  match filter with
  | Filter.mk field op value subs =>
    if op = OpOr then
      match buildQueryList subs with
      | Except.error e => Except.error e
      | Except.ok qs => Except.ok (some (ElasticQuery.boolQ [] [] qs (some 1)))
    else if op = OpAnd then
      match buildQueryList subs with
      | Except.error e => Except.error e
      | Except.ok qs => Except.ok (some (ElasticQuery.boolQ qs [] [] none))
    else if op = OpEq then Except.ok (some (ElasticQuery.term field value))
    else if op = OpNe then
      Except.ok (some (ElasticQuery.boolQ [] [some (ElasticQuery.term field value)] [] none))
    else if op = OpLt then Except.ok (some (ElasticQuery.range field "lt" value))
    else if op = OpLte then Except.ok (some (ElasticQuery.range field "lte" value))
    else if op = OpGt then Except.ok (some (ElasticQuery.range field "gt" value))
    else if op = OpGte then Except.ok (some (ElasticQuery.range field "gte" value))
    else if op = OpIn then
      match value with
      | JValue.arr vs => Except.ok (some (ElasticQuery.terms field vs))
      | _ => Except.error "panic: interface conversion: interface {} is not []interface {}"
    else if op = OpNin then
      match value with
      | JValue.arr vs =>
        Except.ok (some (ElasticQuery.boolQ [] [some (ElasticQuery.terms field vs)] [] none))
      | _ => Except.error "panic: interface conversion: interface {} is not []interface {}"
    else Except.ok none

/-- The loop over nested filters inside `buildQuery`'s `$or`/`$and`
branches: build each sub-query (possibly nil) in order. -/
def buildQueryList (filters : List Filter) : Except String (List (Option ElasticQuery)) :=
  match filters with
  | [] => Except.ok []
  | f :: rest =>
    match buildQuery f with
    | Except.error e => Except.error e
    | Except.ok q =>
      match buildQueryList rest with
      | Except.error e => Except.error e
      | Except.ok qs => Except.ok (q :: qs)

end

/-- `ElasticBuilder.Apply` from elastic.go: build one sub-query per filter
and add each (even a nil one) to the must clauses of a fresh bool query.
The `options` and `model` parameters are accepted but never used — in
particular NO field validation happens on this path. -/
def elasticApply (filters : List Filter) (options : Option QueryOptions)
    (model : GoModel) : Except String ElasticQuery :=
  match buildQueryList filters with
  | Except.error e => Except.error e
  | Except.ok qs => Except.ok (ElasticQuery.boolQ qs [] [] none)

/-- Whether `needle` is a prefix of `hay` (character lists). -/
def startsWithList : List Char → List Char → Bool
  | [], _ => true
  | _ :: _, [] => false
  | n :: ns, h :: hs => n = h && startsWithList ns hs

/-- Whether `needle` occurs as a contiguous substring of `hay`. -/
def containsList (needle : List Char) : List Char → Bool
  | [] => needle.isEmpty
  | h :: hs => startsWithList needle (h :: hs) || containsList needle hs

/-- Whether `needle` occurs as a contiguous substring of `hay`. -/
def strContains (hay needle : String) : Bool :=
  containsList needle.data hay.data

/-- Whether a string is free of the `?` placeholder marker. -/
def qMarkFree (s : String) : Bool :=
  s.data.all (fun c => c ≠ '?')

/-- The argument block one parsed comparison contributes to the SQL argument
list (the specification-side projection of `buildCondition` followed by
squirrel rendering): array values contribute their elements in order, null
contributes nothing, a `$like` string value contributes its `%`-wrapped
form, and any other value contributes itself. -/
def scalarArgs (v : JValue) : List JValue :=
  match v with
  | JValue.null => []
  | JValue.arr vs => vs
  | w => [w]

def leafArgs (f : Filter) : List JValue :=
  if f.Operator = OpLike then
    match f.Value with
    | JValue.str s => [JValue.str ("%" ++ s ++ "%")]
    | _ => []
  else scalarArgs f.Value

/-- The `TestUser` model of the test suite: JSON tags for all fields except
the private `Password` (tag `-`), no `db` tags. -/
def testUser : GoModel :=
  { isStruct := true, kindStr := "struct",
    fields := [ { name := "ID", jsonTag := "id", dbTag := "" },
                { name := "Name", jsonTag := "name", dbTag := "" },
                { name := "Age", jsonTag := "age", dbTag := "" },
                { name := "Email", jsonTag := "email", dbTag := "" },
                { name := "Password", jsonTag := "-", dbTag := "" },
                { name := "CreatedAt", jsonTag := "created_at", dbTag := "" } ] }

/-- The `Player` model of or_like_integration_test.go: matching `json` and
`db` tags on every field. -/
def playerModel : GoModel :=
  { isStruct := true, kindStr := "struct",
    fields := [ { name := "Firstname", jsonTag := "firstname", dbTag := "firstname" },
                { name := "Lastname", jsonTag := "lastname", dbTag := "lastname" },
                { name := "State", jsonTag := "state", dbTag := "state" } ] }

/-- The decoded filter object of the bug-report test
`{"$or": [{"firstname": {"$like": "Rom"}}, {"lastname": {"$like": "Rom"}}]}`. -/
def orLikeInput : List (String × JValue) :=
  [("$or", JValue.arr
      [ JValue.obj [("firstname", JValue.obj [("$like", JValue.str "Rom")])],
        JValue.obj [("lastname", JValue.obj [("$like", JValue.str "Rom")])] ])]

/-- C1: for any filter whose JSON contains an `$or` key with two sub-filter
objects A and B, the SQL produced by parsing the filter and applying it
through the SQL builder joins A's predicate and B's predicate with a
disjunction (OR), never with a conjunction (AND), at any nesting depth.
REFUTED — the claim matches the repository's own tests
(TestOrLikeBugFix asserts `firstname LIKE $1 OR lastname LIKE $2` and
forbids AND), but `parseFilters` flattens the `$or` array into a plain
filter list and `applySelectFilters` joins everything with
`squirrel.And`: on the exact bug-report input the emitted SQL conjoins the
two predicates with AND and contains no OR. -/
theorem c1_or_flattened_into_and :
    parseFilters orLikeInput =
      Except.ok [Filter.mk "firstname" "$like" (JValue.str "Rom") [],
                 Filter.mk "lastname" "$like" (JValue.str "Rom") []] ∧
    sqlPipeline PlaceholderFormat.dollar "players"
        [Filter.mk "firstname" "$like" (JValue.str "Rom") [],
         Filter.mk "lastname" "$like" (JValue.str "Rom") []] none playerModel =
      Except.ok ("SELECT * FROM players WHERE (firstname ILIKE $1 AND lastname ILIKE $2)",
                 [JValue.str "%Rom%", JValue.str "%Rom%"]) ∧
    strContains "SELECT * FROM players WHERE (firstname ILIKE $1 AND lastname ILIKE $2)"
        " AND " = true ∧
    strContains "SELECT * FROM players WHERE (firstname ILIKE $1 AND lastname ILIKE $2)"
        " OR " = false := by
  refine ⟨?_, ?_, ?_, ?_⟩
  · simp [orLikeInput, parseFilters, parseOrList, entryFilters, lookupVal, OpOr, OpAnd, OpEq]
  · set_option maxRecDepth 8000 in rfl
  · decide
  · decide

theorem lookupVal_erase_and (v : JValue) :
    ∀ (l1 l2 : List (String × JValue)),
      lookupVal "$or" (l1 ++ ("$and", v) :: l2) = lookupVal "$or" (l1 ++ l2) := by
  intro l1 l2
  induction l1 with
  | nil => simp [lookupVal]
  | cons hd tl ih =>
    obtain ⟨a, b⟩ := hd
    simp only [List.cons_append, lookupVal]
    split
    · rfl
    · exact ih

/-- C2 counterexample: the filter `{"$and": [{"age": {"$gt": 5}}]}`
parses to the EMPTY filter list — the condition nested under `$and` is
dropped, so the claim that every element of a `$and` array is recursively
parsed into an AND group is false on this code. -/
theorem c2_and_conditions_dropped :
    parseFilters [("$and", JValue.arr [JValue.obj [("age", JValue.obj [("$gt", JValue.num 5)])]])] =
      Except.ok [] := by
  simp [parseFilters, entryFilters, lookupVal, OpOr, OpAnd]

/-- C2 amended: a `$and` entry of a filter object is ignored entirely by
`parseFilters` — removing it (wherever it occurs) does not change the
parse result, so conditions below `$and` never reach the IR. -/
theorem c2_and_key_ignored (v : JValue) (l1 l2 : List (String × JValue)) :
    parseFilters (l1 ++ ("$and", v) :: l2) = parseFilters (l1 ++ l2) := by
  have hl := lookupVal_erase_and v l1 l2
  rw [parseFilters.eq_def, parseFilters.eq_def]
  rw [hl]
  cases hv : lookupVal "$or" (l1 ++ l2) with
  | none =>
    simp only []
    rw [List.flatMap_append, List.flatMap_append]
    simp [List.flatMap_cons, entryFilters, OpAnd, OpOr]
  | some w =>
    cases w with
    | arr orFilters => rfl
    | null =>
      simp only []
      rw [List.flatMap_append, List.flatMap_append]
      simp [List.flatMap_cons, entryFilters, OpAnd, OpOr]
    | bool b =>
      simp only []
      rw [List.flatMap_append, List.flatMap_append]
      simp [List.flatMap_cons, entryFilters, OpAnd, OpOr]
    | num n =>
      simp only []
      rw [List.flatMap_append, List.flatMap_append]
      simp [List.flatMap_cons, entryFilters, OpAnd, OpOr]
    | str s =>
      simp only []
      rw [List.flatMap_append, List.flatMap_append]
      simp [List.flatMap_cons, entryFilters, OpAnd, OpOr]
    | obj fs =>
      simp only []
      rw [List.flatMap_append, List.flatMap_append]
      simp [List.flatMap_cons, entryFilters, OpAnd, OpOr]

/-- C3 counterexample: the field `nosuch` is not among `testUser`'s JSON
tags, yet `ElasticBuilder.Apply` happily builds a search query for it — the
elastic path performs no field validation at all, refuting the claim that
BOTH builders fail with an unknown-field error. -/
theorem c3_elastic_no_validation :
    tagValuesContain (jsonTagsList testUser.fields) "nosuch" = false ∧
    elasticApply [Filter.mk "nosuch" "$eq" (JValue.num 1) []] none testUser =
      Except.ok (ElasticQuery.boolQ [some (ElasticQuery.term "nosuch" (JValue.num 1))]
        [] [] none) := by
  constructor
  · decide
  · simp [elasticApply, buildQueryList, buildQuery, OpOr, OpAnd, OpEq]

/-- C3 amended: the SQL builder alone enforces field gating — whenever any
filter field or any sort key is absent from the model's JSON tag values,
`SqlBuilder.Apply` fails with the corresponding unknown-field error and no
query is produced (the elastic builder, by contrast, never validates: see
the counterexample). -/
theorem c3_sql_unknown_field_rejected (qb : SqlBuilder) (filters : List Filter)
    (options : Option QueryOptions) (model : GoModel)
    (hs : model.isStruct = true)
    (hbad : (∃ f ∈ filters, tagValuesContain (jsonTagsList model.fields) f.Field = false) ∨
            (∃ opts, options = some opts ∧
              ∃ s ∈ opts.sort, tagValuesContain (jsonTagsList model.fields) s.1 = false)) :
    ∃ fd, qb.Apply filters options model =
        Except.error ("field \"" ++ fd ++ "\" is not a valid JSON field") ∨
      qb.Apply filters options model =
        Except.error ("field \"" ++ fd ++ "\" is not a valid JSON field for sorting") := by
  have htags : getJSONTags model = Except.ok (jsonTagsList model.fields) := by
    simp [getJSONTags, hs]
  have hdb : getDBTags model = Except.ok (dbTagsList model.fields) := by
    simp [getDBTags, hs]
  set tags := jsonTagsList model.fields with htagsdef
  have hval : ∃ fd, validateFields filters options tags =
      some ("field \"" ++ fd ++ "\" is not a valid JSON field") ∨
      validateFields filters options tags =
      some ("field \"" ++ fd ++ "\" is not a valid JSON field for sorting") := by
    cases hfind : filters.find? (fun f => !(tagValuesContain tags f.Field)) with
    | some g =>
      exact ⟨g.Field, Or.inl (by simp [validateFields, hfind])⟩
    | none =>
      rcases hbad with ⟨f, hf, hfbad⟩ | ⟨opts, hopts, s, hsmem, hsbad⟩
      · exfalso
        have : (filters.find? (fun f => !(tagValuesContain tags f.Field))).isSome := by
          rw [List.find?_isSome]
          exact ⟨f, hf, by simp [hfbad]⟩
        rw [hfind] at this
        simp at this
      · have hlen : opts.sort.length > 0 := by
          cases hsort : opts.sort with
          | nil => rw [hsort] at hsmem; simp at hsmem
          | cons a l => simp
        cases hsfind : opts.sort.find? (fun e => !(tagValuesContain tags e.1)) with
        | some g =>
          refine ⟨g.1, Or.inr ?_⟩
          simp only [validateFields, hfind, hopts]
          rw [if_pos hlen, hsfind]
        | none =>
          exfalso
          have : (opts.sort.find? (fun e => !(tagValuesContain tags e.1))).isSome := by
            rw [List.find?_isSome]
            exact ⟨s, hsmem, by simp [hsbad]⟩
          rw [hsfind] at this
          simp at this
  obtain ⟨fd, hv⟩ := hval
  refine ⟨fd, ?_⟩
  rcases hv with hv | hv
  · exact Or.inl (by simp only [SqlBuilder.Apply, htags, hdb, ← htagsdef, hv])
  · exact Or.inr (by simp only [SqlBuilder.Apply, htags, hdb, ← htagsdef, hv])

theorem c3_sql_unknown_field_rejected_witness :
    ∃ fd, SqlBuilder.Apply (NewSqlBuilder.WithSelect "users")
        [Filter.mk "password" "$eq" (JValue.str "secret") []] none testUser =
        Except.error ("field \"" ++ fd ++ "\" is not a valid JSON field") ∨
      SqlBuilder.Apply (NewSqlBuilder.WithSelect "users")
        [Filter.mk "password" "$eq" (JValue.str "secret") []] none testUser =
        Except.error ("field \"" ++ fd ++ "\" is not a valid JSON field for sorting") :=
  c3_sql_unknown_field_rejected (NewSqlBuilder.WithSelect "users")
    [Filter.mk "password" "$eq" (JValue.str "secret") []] none testUser
    (by decide)
    (Or.inl ⟨Filter.mk "password" "$eq" (JValue.str "secret") [], List.Mem.head _, by decide⟩)

/-- C4 counterexample: `{"age": {"$foo": 1}}` contains an unrecognized
operator keyword, yet `parseFilters` succeeds, returning a filter that
carries the unknown keyword — it does NOT fail with an unsupported-operator
error, refuting the claim. -/
theorem c4_unknown_operator_parse_succeeds :
    parseFilters [("age", JValue.obj [("$foo", JValue.num 1)])] =
      Except.ok [Filter.mk "age" "$foo" (JValue.num 1) []] := by
  simp [parseFilters, entryFilters, lookupVal, OpOr, OpAnd]

/-- C4 amended: the parser accepts any operator keyword unchecked; the
unsupported-operator error is only raised later, by the SQL compiler's
`buildCondition`, and it names the offending keyword but not the field. -/
theorem c4_unsupported_operator_error_in_sql_compiler
    (field : String) (op : Operator) (value : JValue) (subs : List Filter)
    (jsonToDB : List (String × String))
    (hop : op ∉ ([OpEq, OpNe, OpLt, OpLte, OpGt, OpGte, OpIn, OpNin, OpLike] : List Operator)) :
    buildCondition (Filter.mk field op value subs) jsonToDB =
      Except.error ("unsupported operator: " ++ op) := by
  simp only [List.mem_cons, List.not_mem_nil, or_false, not_or] at hop
  obtain ⟨h1, h2, h3, h4, h5, h6, h7, h8, h9⟩ := hop
  simp [buildCondition, Filter.Operator, h1, h2, h3, h4, h5, h6, h7, h8, h9]

theorem c4_unsupported_operator_error_in_sql_compiler_witness :
    buildCondition (Filter.mk "age" "$foo" (JValue.num 1) []) [] =
      Except.error ("unsupported operator: " ++ "$foo") :=
  c4_unsupported_operator_error_in_sql_compiler "age" "$foo" (JValue.num 1) [] []
    (by decide)

/-- C5 counterexample: `$like` has no search-query equivalent, yet the
search compiler does not fail: `buildQuery` falls through its switch and
returns a nil query with a nil error, and `ElasticBuilder.Apply` succeeds,
adding the nil sub-query to the must clauses. -/
theorem c5_elastic_unsupported_op_succeeds :
    buildQuery (Filter.mk "name" "$like" (JValue.str "x") []) = Except.ok none ∧
    elasticApply [Filter.mk "name" "$like" (JValue.str "x") []] none testUser =
      Except.ok (ElasticQuery.boolQ [none] [] [] none) := by
  constructor
  · simp [buildQuery, OpOr, OpAnd, OpEq, OpNe, OpLt, OpLte, OpGt, OpGte, OpIn, OpNin]
  · simp [elasticApply, buildQueryList, buildQuery,
      OpOr, OpAnd, OpEq, OpNe, OpLt, OpLte, OpGt, OpGte, OpIn, OpNin]

/-- C5 amended: for every operator outside the set recognized by the search
compiler, `buildQuery` returns a nil query together with a nil error (it
silently succeeds instead of reporting an unsupported operator). -/
theorem c5_elastic_unknown_op_yields_nil
    (field : String) (op : Operator) (value : JValue) (subs : List Filter)
    (hop : op ∉ ([OpOr, OpAnd, OpEq, OpNe, OpLt, OpLte, OpGt, OpGte, OpIn, OpNin] :
      List Operator)) :
    buildQuery (Filter.mk field op value subs) = Except.ok none := by
  simp only [List.mem_cons, List.not_mem_nil, or_false, not_or] at hop
  obtain ⟨h1, h2, h3, h4, h5, h6, h7, h8, h9, h10⟩ := hop
  simp [buildQuery, h1, h2, h3, h4, h5, h6, h7, h8, h9, h10]

theorem c5_elastic_unknown_op_yields_nil_witness :
    buildQuery (Filter.mk "name" "$like" (JValue.str "x") []) = Except.ok none :=
  c5_elastic_unknown_op_yields_nil "name" "$like" (JValue.str "x") [] (by decide)

/-- C6: parsing the empty filter object `{}` (which `encoding/json`
decodes to an empty map) yields the empty filter list; applying that empty
list leaves the select builder untouched (no WHERE part), the rendered SQL
is just `SELECT * FROM table`, and the elastic builder produces a bool
query with no must clause — for any table, placeholder format, and any
struct model. -/
theorem c6_empty_filter_no_where (fmt : PlaceholderFormat) (table : String)
    (model : GoModel) (hs : model.isStruct = true) :
    parseFilters [] = Except.ok [] ∧
    ((NewSqlBuilderWithPlaceholderFormat fmt).WithSelect table).Apply [] none model =
      Except.ok ((NewSqlBuilderWithPlaceholderFormat fmt).WithSelect table) ∧
    sqlPipeline fmt table [] none model =
      Except.ok (applyFormat fmt ("SELECT * FROM " ++ table), []) ∧
    elasticApply [] none model = Except.ok (ElasticQuery.boolQ [] [] [] none) := by
  have happly : ((NewSqlBuilderWithPlaceholderFormat fmt).WithSelect table).Apply [] none model =
      Except.ok ((NewSqlBuilderWithPlaceholderFormat fmt).WithSelect table) := by
    simp [SqlBuilder.Apply, getJSONTags, getDBTags, hs, validateFields,
      applySelectFilters, applyOptions, NewSqlBuilderWithPlaceholderFormat,
      SqlBuilder.WithSelect, List.mapM, List.mapM.loop, List.find?_nil, pure, Except.pure]
  refine ⟨?_, happly, ?_, ?_⟩
  · simp [parseFilters, lookupVal]
  · simp only [sqlPipeline, happly]
    simp [SqlBuilder.ToSql, NewSqlBuilderWithPlaceholderFormat, SqlBuilder.WithSelect,
      selectQuery, selectRawSql, List.mapM, List.mapM.loop, pure, Except.pure,
      String.append_empty]
  · rfl

theorem c6_empty_filter_no_where_witness :
    parseFilters [] = Except.ok [] ∧
    ((NewSqlBuilderWithPlaceholderFormat PlaceholderFormat.dollar).WithSelect "users").Apply
        [] none testUser =
      Except.ok ((NewSqlBuilderWithPlaceholderFormat PlaceholderFormat.dollar).WithSelect "users") ∧
    sqlPipeline PlaceholderFormat.dollar "users" [] none testUser =
      Except.ok (applyFormat PlaceholderFormat.dollar ("SELECT * FROM " ++ "users"), []) ∧
    elasticApply [] none testUser = Except.ok (ElasticQuery.boolQ [] [] [] none) :=
  c6_empty_filter_no_where PlaceholderFormat.dollar "users" testUser (by decide)

/-- C10: a builder configured through `WithUpdate`, `WithDelete`, or
`WithInsert` has a zero select builder, so `Apply` performs only the tag
reflection and field validation and then returns the builder unchanged —
filters and options are silently discarded (no WHERE, ORDER BY, LIMIT or
OFFSET is ever added to the underlying query). -/
theorem c10_nonselect_apply_validates_only (fmt : PlaceholderFormat) (table : String)
    (filters : List Filter) (options : Option QueryOptions) (model : GoModel)
    (hs : model.isStruct = true) :
    (((NewSqlBuilderWithPlaceholderFormat fmt).WithUpdate table).Apply filters options model =
      match validateFields filters options (jsonTagsList model.fields) with
      | some e => Except.error e
      | none => Except.ok ((NewSqlBuilderWithPlaceholderFormat fmt).WithUpdate table)) ∧
    (((NewSqlBuilderWithPlaceholderFormat fmt).WithDelete table).Apply filters options model =
      match validateFields filters options (jsonTagsList model.fields) with
      | some e => Except.error e
      | none => Except.ok ((NewSqlBuilderWithPlaceholderFormat fmt).WithDelete table)) ∧
    (((NewSqlBuilderWithPlaceholderFormat fmt).WithInsert table).Apply filters options model =
      match validateFields filters options (jsonTagsList model.fields) with
      | some e => Except.error e
      | none => Except.ok ((NewSqlBuilderWithPlaceholderFormat fmt).WithInsert table)) := by
  refine ⟨?_, ?_, ?_⟩ <;>
  · cases hv : validateFields filters options (jsonTagsList model.fields) with
    | some e =>
      simp [SqlBuilder.Apply, getJSONTags, getDBTags, hs, hv,
        NewSqlBuilderWithPlaceholderFormat, SqlBuilder.WithUpdate,
        SqlBuilder.WithDelete, SqlBuilder.WithInsert]
    | none =>
      simp [SqlBuilder.Apply, getJSONTags, getDBTags, hs, hv,
        NewSqlBuilderWithPlaceholderFormat, SqlBuilder.WithUpdate,
        SqlBuilder.WithDelete, SqlBuilder.WithInsert]

theorem c10_nonselect_apply_validates_only_witness :
    (((NewSqlBuilderWithPlaceholderFormat PlaceholderFormat.dollar).WithUpdate "users").Apply
        [Filter.mk "age" "$gt" (JValue.num 18) []] none testUser =
      match validateFields [Filter.mk "age" "$gt" (JValue.num 18) []] none
          (jsonTagsList testUser.fields) with
      | some e => Except.error e
      | none => Except.ok ((NewSqlBuilderWithPlaceholderFormat PlaceholderFormat.dollar).WithUpdate "users")) ∧
    (((NewSqlBuilderWithPlaceholderFormat PlaceholderFormat.dollar).WithDelete "users").Apply
        [Filter.mk "age" "$gt" (JValue.num 18) []] none testUser =
      match validateFields [Filter.mk "age" "$gt" (JValue.num 18) []] none
          (jsonTagsList testUser.fields) with
      | some e => Except.error e
      | none => Except.ok ((NewSqlBuilderWithPlaceholderFormat PlaceholderFormat.dollar).WithDelete "users")) ∧
    (((NewSqlBuilderWithPlaceholderFormat PlaceholderFormat.dollar).WithInsert "users").Apply
        [Filter.mk "age" "$gt" (JValue.num 18) []] none testUser =
      match validateFields [Filter.mk "age" "$gt" (JValue.num 18) []] none
          (jsonTagsList testUser.fields) with
      | some e => Except.error e
      | none => Except.ok ((NewSqlBuilderWithPlaceholderFormat PlaceholderFormat.dollar).WithInsert "users")) :=
  c10_nonselect_apply_validates_only PlaceholderFormat.dollar "users"
    [Filter.mk "age" "$gt" (JValue.num 18) []] none testUser (by decide)

/-- Overwrite only the placeholder format of a builder (used to compare
runs of the pipeline that differ in nothing but the format). -/
def setFmt (b : SqlBuilder) (f : PlaceholderFormat) : SqlBuilder :=
  { b with placeholderFormat := f }

theorem addSortClause_setFmt (j : List (String × String)) (b : SqlBuilder)
    (f : PlaceholderFormat) (entry : String × SortDirection) :
    addSortClause j (setFmt b f) entry = setFmt (addSortClause j b entry) f := by
  obtain ⟨qt, sb, ub, db, ib, pf⟩ := b
  rfl

theorem foldl_addSortClause_setFmt (j : List (String × String)) (f : PlaceholderFormat) :
    ∀ (l : List (String × SortDirection)) (b : SqlBuilder),
      l.foldl (addSortClause j) (setFmt b f) = setFmt (l.foldl (addSortClause j) b) f := by
  intro l
  induction l with
  | nil => intro b; rfl
  | cons hd tl ih =>
    intro b
    simp only [List.foldl_cons, addSortClause_setFmt]
    exact ih (addSortClause j b hd)

theorem applySelectFilters_setFmt (b : SqlBuilder) (f : PlaceholderFormat)
    (filters : List Filter) (j : List (String × String)) :
    applySelectFilters (setFmt b f) filters j =
      (applySelectFilters b filters j).map (fun x => setFmt x f) := by
  obtain ⟨qt, sb, ub, db, ib, pf⟩ := b
  unfold applySelectFilters
  cases hm : filters.mapM (fun fl => buildCondition fl j) with
  | error e => rfl
  | ok conds =>
    by_cases hc : conds.length > 0
    · simp [hc, Except.map, setFmt]
    · simp [hc, Except.map, setFmt]

theorem applyOptions_setFmt (b : SqlBuilder) (f : PlaceholderFormat)
    (options : Option QueryOptions) (j : List (String × String)) :
    applyOptions (setFmt b f) options j =
      (applyOptions b options j).map (fun x => setFmt x f) := by
  cases options with
  | none => rfl
  | some opts =>
    simp only [applyOptions]
    by_cases hl : opts.sort.length > 0
    · simp only [hl, if_pos, foldl_addSortClause_setFmt]
      cases hlim : opts.limit <;> cases hoff : opts.offset <;>
        · obtain ⟨qt, sb, ub, db, ib, pf⟩ := opts.sort.foldl (addSortClause j) b
          simp [Except.map, setFmt]
    · simp only [hl, if_neg, Except.map]
      cases hlim : opts.limit <;> cases hoff : opts.offset <;>
        · obtain ⟨qt, sb, ub, db, ib, pf⟩ := b
          simp [Except.map, setFmt]

theorem apply_setFmt (b : SqlBuilder) (f : PlaceholderFormat) (filters : List Filter)
    (options : Option QueryOptions) (model : GoModel) :
    (setFmt b f).Apply filters options model =
      (b.Apply filters options model).map (fun x => setFmt x f) := by
  unfold SqlBuilder.Apply
  split
  · rfl
  · split
    · rfl
    · split
      · rfl
      · have hsel : (setFmt b f).selectBuilder = b.selectBuilder := rfl
        rw [hsel]
        cases hsb : b.selectBuilder with
        | none => dsimp only; rfl
        | some ss =>
          dsimp only
          rw [applySelectFilters_setFmt]
          cases hasf : applySelectFilters b filters (jsonToDBMap _ _) with
          | error e => rfl
          | ok qb2 =>
            dsimp only [Except.map]
            rw [applyOptions_setFmt]
            cases applyOptions qb2 options (jsonToDBMap _ _) <;> rfl

theorem toSql_setFmt (b : SqlBuilder) (f : PlaceholderFormat)
    (hq : b.placeholderFormat = PlaceholderFormat.question) :
    (setFmt b f).ToSql = b.ToSql.map (fun r => (applyFormat f r.1, r.2)) := by
  unfold SqlBuilder.ToSql
  have hqt : (setFmt b f).queryType = b.queryType := rfl
  have hsb : (setFmt b f).selectBuilder = b.selectBuilder := rfl
  have hub : (setFmt b f).updateBuilder = b.updateBuilder := rfl
  have hdb : (setFmt b f).deleteBuilder = b.deleteBuilder := rfl
  have hib : (setFmt b f).insertBuilder = b.insertBuilder := rfl
  have hpf : (setFmt b f).placeholderFormat = f := rfl
  rw [hqt, hsb, hub, hdb, hib, hpf, hq]
  by_cases h0 : b.queryType = selectQuery
  · simp only [h0, if_pos]
    cases hs : b.selectBuilder with
    | none => rfl
    | some ss =>
      dsimp only
      cases hr : selectRawSql ss with
      | error e => rfl
      | ok r =>
        obtain ⟨raw, args⟩ := r
        dsimp only [Except.map]
        simp [applyFormat]
  · by_cases h1 : b.queryType = updateQuery
    · simp only [h0, h1, if_neg, if_pos]
      cases hu : b.updateBuilder <;> rfl
    · by_cases h2 : b.queryType = deleteQuery
      · simp only [h0, h1, h2, if_neg, if_pos]
        cases hd : b.deleteBuilder with
        | none => rfl
        | some t =>
          cases f <;> simp [selectQuery, updateQuery, deleteQuery, Except.map, applyFormat]
      · by_cases h3 : b.queryType = insertQuery
        · simp only [h0, h1, h2, h3, if_neg, if_pos]
          cases hi : b.insertBuilder <;> rfl
        · simp only [h0, h1, h2, h3, if_neg]
          rfl

theorem apply_preserves_fmt (b : SqlBuilder) (filters : List Filter)
    (options : Option QueryOptions) (model : GoModel) (b2 : SqlBuilder)
    (h : b.Apply filters options model = Except.ok b2) :
    b2.placeholderFormat = b.placeholderFormat := by
  have hsetid : setFmt b b.placeholderFormat = b := rfl
  have hthis := apply_setFmt b b.placeholderFormat filters options model
  rw [hsetid, h] at hthis
  simp only [Except.map] at hthis
  injection hthis with h3
  rw [h3]
  rfl

/-- C8: compiling the same filters and options under each supported
placeholder format produces the same argument list and the same predicate
structure: the result under format `fmt` is exactly the result under
`Question` with the placeholder tokens renumbered by `applyFormat fmt` —
the argument component is untouched and errors agree. -/
theorem c8_format_only_changes_tokens (fmt : PlaceholderFormat) (table : String)
    (filters : List Filter) (options : Option QueryOptions) (model : GoModel) :
    sqlPipeline fmt table filters options model =
      (sqlPipeline PlaceholderFormat.question table filters options model).map
        (fun r => (applyFormat fmt r.1, r.2)) := by
  have hb : (NewSqlBuilderWithPlaceholderFormat fmt).WithSelect table =
      setFmt ((NewSqlBuilderWithPlaceholderFormat PlaceholderFormat.question).WithSelect table)
        fmt := rfl
  unfold sqlPipeline
  rw [hb, apply_setFmt]
  cases happ : ((NewSqlBuilderWithPlaceholderFormat PlaceholderFormat.question).WithSelect
      table).Apply filters options model with
  | error e => rfl
  | ok qb2 =>
    dsimp only [Except.map]
    have hq : qb2.placeholderFormat = PlaceholderFormat.question := by
      have hpres := apply_preserves_fmt _ filters options model qb2 happ
      rw [hpres]
      rfl
    exact toSql_setFmt qb2 fmt hq

theorem parseFilters_or_arm {m : List (String × JValue)} {l : List JValue}
    (h : lookupVal "$or" m = some (JValue.arr l)) :
    parseFilters m = parseOrList l := by
  rw [parseFilters.eq_def, h]

theorem parseFilters_plain_arm {m : List (String × JValue)}
    (h : ∀ l, lookupVal "$or" m ≠ some (JValue.arr l)) :
    parseFilters m = Except.ok (m.flatMap entryFilters) := by
  rw [parseFilters.eq_def]
  cases hv : lookupVal "$or" m with
  | none => rfl
  | some w =>
    cases w with
    | arr l => exact absurd hv (h l)
    | null => rfl
    | bool b => rfl
    | num n => rfl
    | str s => rfl
    | obj fs => rfl

theorem lookupVal_perm (k : String) :
    ∀ {m1 m2 : List (String × JValue)}, m1.Perm m2 → (m1.map Prod.fst).Nodup →
      lookupVal k m1 = lookupVal k m2 := by
  intro m1 m2 hp
  induction hp with
  | nil => intro _; rfl
  | cons x hp ih =>
    intro hnd
    obtain ⟨a, v⟩ := x
    simp only [lookupVal]
    split
    · rfl
    · exact ih ((List.nodup_cons.mp (by simpa using hnd)).2)
  | swap x y l =>
    intro hnd
    obtain ⟨a1, v1⟩ := x
    obtain ⟨a2, v2⟩ := y
    simp only [List.map_cons, List.nodup_cons, List.mem_cons, List.mem_map] at hnd
    simp only [lookupVal]
    by_cases h2 : a2 = k
    · by_cases h1 : a1 = k
      · exfalso
        exact hnd.1 (Or.inl (h2.trans h1.symm))
      · simp [h1, h2]
    · by_cases h1 : a1 = k
      · simp [h1, h2]
      · simp [h1, h2]
  | trans p1 p2 ih1 ih2 =>
    intro hnd
    exact (ih1 hnd).trans (ih2 ((p1.map Prod.fst).nodup hnd))

def filterAge : Filter := Filter.mk "age" OpEq (JValue.num 20) []
def filterName : Filter := Filter.mk "name" OpEq (JValue.str "mike") []

/-- C9 counterexample: `{"age": 20, "name": "mike"}` is one Go map, but Go
leaves map iteration order unspecified (and randomizes it per run).  The two
possible iteration orders of the same object parse to oppositely ordered
filter lists and compile to DIFFERENT SQL texts and DIFFERENT argument
lists, so two runs of parse-then-Apply-then-ToSql need not be identical. -/
theorem c9_iteration_order_changes_sql :
    ([("age", JValue.num 20), ("name", JValue.str "mike")] :
        List (String × JValue)).Perm
      [("name", JValue.str "mike"), ("age", JValue.num 20)] ∧
    parseFilters [("age", JValue.num 20), ("name", JValue.str "mike")] =
      Except.ok [filterAge, filterName] ∧
    parseFilters [("name", JValue.str "mike"), ("age", JValue.num 20)] =
      Except.ok [filterName, filterAge] ∧
    sqlPipeline PlaceholderFormat.dollar "users" [filterAge, filterName] none testUser =
      Except.ok ("SELECT * FROM users WHERE (age = $1 AND name = $2)",
        [JValue.num 20, JValue.str "mike"]) ∧
    sqlPipeline PlaceholderFormat.dollar "users" [filterName, filterAge] none testUser =
      Except.ok ("SELECT * FROM users WHERE (name = $1 AND age = $2)",
        [JValue.str "mike", JValue.num 20]) ∧
    ("SELECT * FROM users WHERE (age = $1 AND name = $2)" ≠
      "SELECT * FROM users WHERE (name = $1 AND age = $2)") ∧
    ([JValue.num 20, JValue.str "mike"] ≠ [JValue.str "mike", JValue.num 20]) := by
  refine ⟨?_, ?_, ?_, ?_, ?_, ?_, ?_⟩
  · exact List.Perm.swap ("name", JValue.str "mike") ("age", JValue.num 20) []
  · simp [parseFilters, entryFilters, lookupVal, filterAge, filterName, OpOr, OpAnd, OpEq]
  · simp [parseFilters, entryFilters, lookupVal, filterAge, filterName, OpOr, OpAnd, OpEq]
  · set_option maxRecDepth 8000 in rfl
  · set_option maxRecDepth 8000 in rfl
  · intro h
    have : ("SELECT * FROM users WHERE (age = $1 AND name = $2)").data =
        ("SELECT * FROM users WHERE (name = $1 AND age = $2)").data := by rw [h]
    simp at this
  · intro h
    have h0 := List.head_eq_of_cons_eq h
    cases h0

/-- C9 amended: each single run is a pure function of the decoded filter
entries IN the iteration order Go happens to choose, and any two runs agree
up to permutation: for the same filter object (same key set, keys unique)
presented in two iteration orders, the parsed filter lists are permutations
of each other.  Identical SQL across runs is NOT guaranteed (see the
counterexample) because clause order follows iteration order. -/
theorem c9_parse_perm_invariant (m1 m2 : List (String × JValue)) (hp : m1.Perm m2)
    (hnd : (m1.map Prod.fst).Nodup) (fs1 fs2 : List Filter)
    (h1 : parseFilters m1 = Except.ok fs1) (h2 : parseFilters m2 = Except.ok fs2) :
    fs1.Perm fs2 := by
  have hl : lookupVal "$or" m1 = lookupVal "$or" m2 := lookupVal_perm "$or" hp hnd
  by_cases hor : ∃ l, lookupVal "$or" m1 = some (JValue.arr l)
  · obtain ⟨l, horl⟩ := hor
    rw [parseFilters_or_arm horl] at h1
    rw [parseFilters_or_arm (hl ▸ horl)] at h2
    rw [h1] at h2
    cases h2
    exact List.Perm.refl _
  · push_neg at hor
    rw [parseFilters_plain_arm hor] at h1
    rw [parseFilters_plain_arm (fun l => hl ▸ hor l)] at h2
    cases h1
    cases h2
    exact hp.flatMap_right entryFilters

theorem c9_parse_perm_invariant_witness :
    ([filterAge, filterName] : List Filter).Perm [filterName, filterAge] :=
  c9_parse_perm_invariant
    [("age", JValue.num 20), ("name", JValue.str "mike")]
    [("name", JValue.str "mike"), ("age", JValue.num 20)]
    (List.Perm.swap ("name", JValue.str "mike") ("age", JValue.num 20) [])
    (by decide)
    [filterAge, filterName] [filterName, filterAge]
    (by simp [parseFilters, entryFilters, lookupVal, filterAge, filterName, OpOr, OpAnd, OpEq])
    (by simp [parseFilters, entryFilters, lookupVal, filterAge, filterName, OpOr, OpAnd, OpEq])

theorem qMarkFree_count {s : String} (h : qMarkFree s = true) : s.data.count '?' = 0 := by
  rw [List.count_eq_zero]
  intro hmem
  have := (List.all_eq_true.mp h) '?' hmem
  simp at this

theorem count_join_in_marks (vs : List JValue) :
    (joinSep "," (vs.map fun _ => "?")).data.count '?' = vs.length := by
  induction vs with
  | nil => rfl
  | cons v rest ih =>
    cases rest with
    | nil => rfl
    | cons w rest2 =>
      simp only [List.map_cons, joinSep, String.data_append, List.count_append,
        List.length_cons] at ih ⊢
      have e1 : List.count '?' ("?").data = 1 := by decide
      have e2 : List.count '?' (",").data = 0 := by decide
      simp only [e1, e2] at ih ⊢
      omega

theorem count_join_and (parts : List String) :
    (joinSep " AND " parts).data.count '?' =
      (parts.map (fun s => s.data.count '?')).sum := by
  induction parts with
  | nil => rfl
  | cons p rest ih =>
    cases rest with
    | nil => simp [joinSep]
    | cons q rest2 =>
      simp only [joinSep, String.data_append, List.count_append, List.map_cons,
        List.sum_cons] at ih ⊢
      have e1 : List.count '?' (" AND ").data = 0 := by decide
      simp only [e1] at ih ⊢
      omega

theorem condToSql_eq_spec (mf : String) (v : JValue) (s : String) (a : List JValue)
    (h : condToSql (Cond.eq mf v) = Except.ok (s, a)) (hq0 : mf.data.count '?' = 0) :
    a = scalarArgs v ∧ s.data.count '?' = a.length := by
  cases v with
  | null =>
    simp only [condToSql] at h
    injection h with h; injection h with h1 h2; subst h1; subst h2
    refine ⟨rfl, ?_⟩
    have e1 : List.count '?' (" IS NULL").data = 0 := by decide
    simp [List.count_append, hq0, e1]
  | arr vs =>
    cases vs with
    | nil =>
      simp only [condToSql] at h
      injection h with h; injection h with h1 h2; subst h1; subst h2
      exact ⟨rfl, by decide⟩
    | cons w ws =>
      simp only [condToSql] at h
      injection h with h; injection h with h1 h2; subst h1; subst h2
      refine ⟨rfl, ?_⟩
      have hj := count_join_in_marks (w :: ws)
      have e1 : List.count '?' (" IN (").data = 0 := by decide
      have e2 : List.count '?' (")").data = 0 := by decide
      simp only [String.data_append, List.count_append, hq0, e1, e2] at hj ⊢
      omega
  | bool b =>
    simp only [condToSql] at h
    injection h with h; injection h with h1 h2; subst h1; subst h2
    refine ⟨rfl, ?_⟩
    have e1 : List.count '?' (" = ?").data = 1 := by decide
    simp [List.count_append, hq0, e1]
  | num n =>
    simp only [condToSql] at h
    injection h with h; injection h with h1 h2; subst h1; subst h2
    refine ⟨rfl, ?_⟩
    have e1 : List.count '?' (" = ?").data = 1 := by decide
    simp [List.count_append, hq0, e1]
  | str t =>
    simp only [condToSql] at h
    injection h with h; injection h with h1 h2; subst h1; subst h2
    refine ⟨rfl, ?_⟩
    have e1 : List.count '?' (" = ?").data = 1 := by decide
    simp [List.count_append, hq0, e1]
  | obj fs =>
    simp only [condToSql] at h
    injection h with h; injection h with h1 h2; subst h1; subst h2
    refine ⟨rfl, ?_⟩
    have e1 : List.count '?' (" = ?").data = 1 := by decide
    simp [List.count_append, hq0, e1]

theorem condToSql_notEq_spec (mf : String) (v : JValue) (s : String) (a : List JValue)
    (h : condToSql (Cond.notEq mf v) = Except.ok (s, a)) (hq0 : mf.data.count '?' = 0) :
    a = scalarArgs v ∧ s.data.count '?' = a.length := by
  cases v with
  | null =>
    simp only [condToSql] at h
    injection h with h; injection h with h1 h2; subst h1; subst h2
    refine ⟨rfl, ?_⟩
    have e1 : List.count '?' (" IS NOT NULL").data = 0 := by decide
    simp [List.count_append, hq0, e1]
  | arr vs =>
    cases vs with
    | nil =>
      simp only [condToSql] at h
      injection h with h; injection h with h1 h2; subst h1; subst h2
      exact ⟨rfl, by decide⟩
    | cons w ws =>
      simp only [condToSql] at h
      injection h with h; injection h with h1 h2; subst h1; subst h2
      refine ⟨rfl, ?_⟩
      have hj := count_join_in_marks (w :: ws)
      have e1 : List.count '?' (" NOT IN (").data = 0 := by decide
      have e2 : List.count '?' (")").data = 0 := by decide
      simp only [String.data_append, List.count_append, hq0, e1, e2] at hj ⊢
      omega
  | bool b =>
    simp only [condToSql] at h
    injection h with h; injection h with h1 h2; subst h1; subst h2
    refine ⟨rfl, ?_⟩
    have e1 : List.count '?' (" <> ?").data = 1 := by decide
    simp [List.count_append, hq0, e1]
  | num n =>
    simp only [condToSql] at h
    injection h with h; injection h with h1 h2; subst h1; subst h2
    refine ⟨rfl, ?_⟩
    have e1 : List.count '?' (" <> ?").data = 1 := by decide
    simp [List.count_append, hq0, e1]
  | str t =>
    simp only [condToSql] at h
    injection h with h; injection h with h1 h2; subst h1; subst h2
    refine ⟨rfl, ?_⟩
    have e1 : List.count '?' (" <> ?").data = 1 := by decide
    simp [List.count_append, hq0, e1]
  | obj fs =>
    simp only [condToSql] at h
    injection h with h; injection h with h1 h2; subst h1; subst h2
    refine ⟨rfl, ?_⟩
    have e1 : List.count '?' (" <> ?").data = 1 := by decide
    simp [List.count_append, hq0, e1]

theorem cmpToSql_spec (mf tok : String) (v : JValue) (s : String) (a : List JValue)
    (h : cmpToSql mf tok v = Except.ok (s, a)) (hq0 : mf.data.count '?' = 0)
    (htok : tok.data.count '?' = 0) :
    a = scalarArgs v ∧ s.data.count '?' = a.length := by
  cases v with
  | null => simp [cmpToSql] at h
  | arr vs => simp [cmpToSql] at h
  | bool b =>
    simp only [cmpToSql] at h
    injection h with h; injection h with h1 h2; subst h1; subst h2
    refine ⟨rfl, ?_⟩
    have e1 : List.count '?' ("?").data = 1 := by decide
    simp [List.count_append, hq0, htok, e1]
  | num n =>
    simp only [cmpToSql] at h
    injection h with h; injection h with h1 h2; subst h1; subst h2
    refine ⟨rfl, ?_⟩
    have e1 : List.count '?' ("?").data = 1 := by decide
    simp [List.count_append, hq0, htok, e1]
  | str t =>
    simp only [cmpToSql] at h
    injection h with h; injection h with h1 h2; subst h1; subst h2
    refine ⟨rfl, ?_⟩
    have e1 : List.count '?' ("?").data = 1 := by decide
    simp [List.count_append, hq0, htok, e1]
  | obj fs =>
    simp only [cmpToSql] at h
    injection h with h; injection h with h1 h2; subst h1; subst h2
    refine ⟨rfl, ?_⟩
    have e1 : List.count '?' ("?").data = 1 := by decide
    simp [List.count_append, hq0, htok, e1]

theorem buildCondition_count_args (fd : String) (op : Operator) (v : JValue)
    (subs : List Filter) (jsonToDB : List (String × String))
    (c : Cond) (s : String) (a : List JValue)
    (hb : buildCondition (Filter.mk fd op v subs) jsonToDB = Except.ok c)
    (hc : condToSql c = Except.ok (s, a))
    (hq : qMarkFree (mappedField jsonToDB fd) = true) :
    a = leafArgs (Filter.mk fd op v subs) ∧ s.data.count '?' = a.length := by
  have hq0 : (mappedField jsonToDB fd).data.count '?' = 0 := qMarkFree_count hq
  simp only [buildCondition, Filter.Field, Filter.Operator, Filter.Value] at hb
  simp only [leafArgs, Filter.Operator, Filter.Value]
  split_ifs at hb with h1 h2 h3 h4 h5 h6 h7 h8 h9
  · -- $eq
    subst h1
    injection hb with hb; subst hb
    simpa [OpEq, OpLike] using condToSql_eq_spec _ v s a hc hq0
  · -- $ne
    subst h2
    injection hb with hb; subst hb
    simpa [OpNe, OpLike] using condToSql_notEq_spec _ v s a hc hq0
  · -- $lt
    subst h3
    injection hb with hb; subst hb
    simp only [condToSql] at hc
    simpa [OpLt, OpLike] using cmpToSql_spec _ " < " v s a hc hq0 (by decide)
  · -- $lte
    subst h4
    injection hb with hb; subst hb
    simp only [condToSql] at hc
    simpa [OpLte, OpLike] using cmpToSql_spec _ " <= " v s a hc hq0 (by decide)
  · -- $gt
    subst h5
    injection hb with hb; subst hb
    simp only [condToSql] at hc
    simpa [OpGt, OpLike] using cmpToSql_spec _ " > " v s a hc hq0 (by decide)
  · -- $gte
    subst h6
    injection hb with hb; subst hb
    simp only [condToSql] at hc
    simpa [OpGte, OpLike] using cmpToSql_spec _ " >= " v s a hc hq0 (by decide)
  · -- $in
    subst h7
    injection hb with hb; subst hb
    simpa [OpIn, OpLike] using condToSql_eq_spec _ v s a hc hq0
  · -- $nin
    subst h8
    injection hb with hb; subst hb
    simpa [OpNin, OpLike] using condToSql_notEq_spec _ v s a hc hq0
  · -- $like
    subst h9
    cases v with
    | str t =>
      injection hb with hb; subst hb
      simp only [condToSql] at hc
      injection hc with hc; injection hc with hc1 hc2; subst hc1; subst hc2
      refine ⟨by simp [OpLike], ?_⟩
      have e1 : List.count '?' (" ILIKE ?").data = 1 := by decide
      simp [List.count_append, hq0, e1]
    | null => exact absurd hb (by simp)
    | bool b => exact absurd hb (by simp)
    | num n => exact absurd hb (by simp)
    | arr vs => exact absurd hb (by simp)
    | obj fs => exact absurd hb (by simp)

theorem mapM_ok_nil {α β : Type} {g : α → Except String β} {ys : List β}
    (h : ([] : List α).mapM g = Except.ok ys) : ys = [] := by
  rw [List.mapM_nil] at h
  simp only [pure, Except.pure, Except.ok.injEq] at h
  exact h.symm

theorem mapM_ok_cons {α β : Type} {g : α → Except String β} {x : α} {xs : List α}
    {ys : List β} (h : (x :: xs).mapM g = Except.ok ys) :
    ∃ y ys2, g x = Except.ok y ∧ xs.mapM g = Except.ok ys2 ∧ ys = y :: ys2 := by
  rw [List.mapM_cons] at h
  cases hg : g x with
  | error e =>
    rw [hg] at h
    simp only [Bind.bind, Except.bind] at h
    cases h
  | ok y =>
    rw [hg] at h
    simp only [Bind.bind, Except.bind] at h
    cases hxs : xs.mapM g with
    | error e =>
      rw [hxs] at h
      simp only [Bind.bind, Except.bind] at h
      cases h
    | ok ys2 =>
      rw [hxs] at h
      simp only [Bind.bind, Except.bind, pure, Except.pure, Except.ok.injEq] at h
      exact ⟨y, ys2, rfl, rfl, h.symm⟩

theorem parts_spec (jsonToDB : List (String × String)) :
    ∀ (filters : List Filter) (conds : List Cond) (parts : List (String × List JValue)),
      filters.mapM (fun fl => buildCondition fl jsonToDB) = Except.ok conds →
      conds.mapM condToSql = Except.ok parts →
      (∀ f ∈ filters, qMarkFree (mappedField jsonToDB f.Field) = true) →
      parts.flatMap (fun p => p.2) = filters.flatMap leafArgs ∧
      (parts.map (fun p => p.1.data.count '?')).sum =
        (parts.flatMap (fun p => p.2)).length := by
  intro filters
  induction filters with
  | nil =>
    intro conds parts h1 h2 hqf
    have hc : conds = [] := mapM_ok_nil h1
    subst hc
    have hp : parts = [] := mapM_ok_nil h2
    subst hp
    exact ⟨rfl, rfl⟩
  | cons f fs ih =>
    intro conds parts h1 h2 hqf
    obtain ⟨c, cs, hgc, hrest, hconds⟩ := mapM_ok_cons h1
    subst hconds
    obtain ⟨p, ps, hpc, hprest, hparts⟩ := mapM_ok_cons h2
    subst hparts
    obtain ⟨fd, op, v, subs⟩ := f
    obtain ⟨hargs, hcount⟩ := buildCondition_count_args fd op v subs jsonToDB c p.1 p.2
      hgc (by rw [hpc]) (hqf _ (List.Mem.head _))
    obtain ⟨ihargs, ihcount⟩ := ih cs ps hrest hprest
      (fun g hg => hqf g (List.Mem.tail _ hg))
    constructor
    · simp only [List.flatMap_cons, ihargs, hargs]
    · simp only [List.map_cons, List.sum_cons, List.flatMap_cons, List.length_append,
        hcount, ihcount]

theorem condListToSql_spec (jsonToDB : List (String × String))
    (filters : List Filter) (conds : List Cond) (s : String) (a : List JValue)
    (h1 : filters.mapM (fun fl => buildCondition fl jsonToDB) = Except.ok conds)
    (hqf : ∀ f ∈ filters, qMarkFree (mappedField jsonToDB f.Field) = true)
    (h2 : condListToSql conds = Except.ok (s, a)) :
    a = filters.flatMap leafArgs ∧ s.data.count '?' = a.length := by
  unfold condListToSql at h2
  cases hm : conds.mapM condToSql with
  | error e => rw [hm] at h2; cases h2
  | ok parts =>
    rw [hm] at h2
    obtain ⟨hflat, hsum⟩ := parts_spec jsonToDB filters conds parts h1 hm hqf
    cases parts with
    | nil =>
      injection h2 with h2; injection h2 with hs ha
      subst hs; subst ha
      simp only [List.flatMap_nil] at hflat
      exact ⟨hflat, by decide⟩
    | cons p ps =>
      injection h2 with h2; injection h2 with hs ha
      subst hs; subst ha
      refine ⟨hflat, ?_⟩
      rw [← hflat] at *
      have hj := count_join_and ((p :: ps).map (fun q => q.1))
      have e1 : List.count '?' ("(").data = 0 := by decide
      have e2 : List.count '?' (")").data = 0 := by decide
      simp only [String.data_append, List.count_append, e1, e2, List.map_map] at hj ⊢
      rw [hj]
      simpa using hsum

theorem mapM_ok_nil_inv {α β : Type} {g : α → Except String β} {xs : List α}
    (h : xs.mapM g = Except.ok ([] : List β)) : xs = [] := by
  cases xs with
  | nil => rfl
  | cons x xs2 =>
    obtain ⟨y, ys2, _, _, hcons⟩ := mapM_ok_cons h
    cases hcons

/-- C7 amended: whenever the SQL pipeline succeeds (Question format shown;
other formats only renumber the same markers, see the C8 theorem), the
emitted argument list is exactly the left-to-right (depth-first) concatenation
of each comparison's argument block, and the number of placeholder markers in
the SQL text equals the number of arguments, so the Nth marker corresponds
one-for-one to the Nth argument.  Field and table names are assumed free of
the `?` marker character (squirrel would renumber such characters too). -/
theorem c7_args_in_depth_first_order (table : String) (filters : List Filter)
    (model : GoModel) (sql : String) (args : List JValue)
    (hT : qMarkFree table = true)
    (hF : ∀ f ∈ filters, qMarkFree (mappedField
        (jsonToDBMap (jsonTagsList model.fields) (dbTagsList model.fields)) f.Field) = true)
    (hrun : sqlPipeline PlaceholderFormat.question table filters none model =
      Except.ok (sql, args)) :
    args = filters.flatMap leafArgs ∧ sql.data.count '?' = args.length := by
  have hT0 : table.data.count '?' = 0 := qMarkFree_count hT
  unfold sqlPipeline at hrun
  cases happ : ((NewSqlBuilderWithPlaceholderFormat PlaceholderFormat.question).WithSelect
      table).Apply filters none model with
  | error e => rw [happ] at hrun; cases hrun
  | ok qb =>
    rw [happ] at hrun
    dsimp only at hrun
    unfold SqlBuilder.Apply at happ
    dsimp only [NewSqlBuilderWithPlaceholderFormat, SqlBuilder.WithSelect] at happ
    cases hjt : getJSONTags model with
    | error e => rw [hjt] at happ; cases happ
    | ok jsonTags =>
      rw [hjt] at happ
      cases hdt : getDBTags model with
      | error e => rw [hdt] at happ; cases happ
      | ok dbTags =>
        rw [hdt] at happ
        dsimp only at happ
        have hjts : jsonTags = jsonTagsList model.fields := by
          unfold getJSONTags at hjt
          split at hjt
          · injection hjt with h; exact h.symm
          · cases hjt
        have hdts : dbTags = dbTagsList model.fields := by
          unfold getDBTags at hdt
          split at hdt
          · injection hdt with h; exact h.symm
          · cases hdt
        subst hjts
        subst hdts
        cases hv : validateFields filters none (jsonTagsList model.fields) with
        | some e => rw [hv] at happ; cases happ
        | none =>
          rw [hv] at happ
          cases hm : filters.mapM (fun fl => buildCondition fl
              (jsonToDBMap (jsonTagsList model.fields) (dbTagsList model.fields))) with
          | error e =>
            dsimp only [applySelectFilters] at happ
            rw [hm] at happ
            dsimp only at happ
            cases happ
          | ok conds =>
            dsimp only [applySelectFilters] at happ
            rw [hm] at happ
            dsimp only [Option.map] at happ
            by_cases hlen : conds.length > 0
            · rw [if_pos hlen] at happ
              dsimp only at happ
              injection happ with happ
              subst happ
              unfold SqlBuilder.ToSql at hrun
              dsimp only at hrun
              rw [if_pos (show selectQuery = selectQuery from rfl)] at hrun
              unfold selectRawSql at hrun
              simp only [List.nil_append] at hrun
              try dsimp only at hrun
              cases hcl : condListToSql conds with
              | error e =>
                have hml : ([conds].mapM condListToSql) = Except.error e := by
                  rw [List.mapM_cons, hcl]
                  rfl
                rw [hml] at hrun
                cases hrun
              | ok pt =>
                have hml : ([conds].mapM condListToSql) = Except.ok [pt] := by
                  rw [List.mapM_cons, hcl, List.mapM_nil]
                  rfl
                rw [hml] at hrun
                dsimp only [applyFormat] at hrun
                injection hrun with hrun
                injection hrun with hs ha
                obtain ⟨pts, pta⟩ := pt
                obtain ⟨hargs, hcnt⟩ := condListToSql_spec _ filters conds pts pta hm hF hcl
                subst hs
                subst ha
                simp only [List.flatMap_cons, List.flatMap_nil, List.append_nil]
                refine ⟨hargs, ?_⟩
                have e0 : List.count '?' ("SELECT * FROM ").data = 0 := by decide
                have e1 : List.count '?' (" WHERE ").data = 0 := by decide
                simp only [joinSep, String.data_append, List.count_append, List.map_cons,
                  List.count_nil, e0, e1, hT0]
                omega
            · rw [if_neg hlen] at happ
              injection happ with happ
              subst happ
              have hc0 : conds = [] := by
                cases conds with
                | nil => rfl
                | cons c cs => simp at hlen
              subst hc0
              have hf0 : filters = [] := mapM_ok_nil_inv hm
              subst hf0
              unfold SqlBuilder.ToSql at hrun
              dsimp only at hrun
              rw [if_pos (show selectQuery = selectQuery from rfl)] at hrun
              unfold selectRawSql at hrun
              dsimp only at hrun
              rw [List.mapM_nil] at hrun
              simp only [pure, Except.pure] at hrun
              dsimp only [applyFormat] at hrun
              injection hrun with hrun
              injection hrun with hs ha
              subst hs
              subst ha
              refine ⟨rfl, ?_⟩
              have e0 : List.count '?' ("SELECT * FROM ").data = 0 := by decide
              simp [List.count_append, e0, hT0]

/-- C7 counterexample: with a two-leaf filter list whose first leaf is an
`$in` over a two-element array, the emitted SQL has THREE placeholders for
TWO comparison leaves, so the claimed one-for-one correspondence between the
Nth placeholder and the Nth comparison leaf fails (the second placeholder
still belongs to the first leaf).  The argument list does match the
placeholders one-for-one. -/
theorem c7_in_breaks_nth_correspondence :
    sqlPipeline PlaceholderFormat.question "users"
        [Filter.mk "age" OpIn (JValue.arr [JValue.num 20, JValue.num 1]) [],
         Filter.mk "name" OpEq (JValue.str "mike") []] none testUser =
      Except.ok ("SELECT * FROM users WHERE (age IN (?,?) AND name = ?)",
        [JValue.num 20, JValue.num 1, JValue.str "mike"]) ∧
    ("SELECT * FROM users WHERE (age IN (?,?) AND name = ?)").data.count '?' = 3 ∧
    ([Filter.mk "age" OpIn (JValue.arr [JValue.num 20, JValue.num 1]) [],
      Filter.mk "name" OpEq (JValue.str "mike") []] : List Filter).length = 2 ∧
    (3 : Nat) ≠ 2 := by
  refine ⟨?_, by decide, by rfl, by decide⟩
  set_option maxRecDepth 8000 in rfl

theorem c7_args_in_depth_first_order_witness :
    ([JValue.num 20, JValue.str "mike"] : List JValue) =
      ([Filter.mk "age" OpGt (JValue.num 20) [],
        Filter.mk "name" OpEq (JValue.str "mike") []] : List Filter).flatMap leafArgs ∧
    ("SELECT * FROM users WHERE (age > ? AND name = ?)").data.count '?' =
      ([JValue.num 20, JValue.str "mike"] : List JValue).length :=
  c7_args_in_depth_first_order "users"
    [Filter.mk "age" OpGt (JValue.num 20) [],
     Filter.mk "name" OpEq (JValue.str "mike") []] testUser
    "SELECT * FROM users WHERE (age > ? AND name = ?)"
    [JValue.num 20, JValue.str "mike"]
    (by decide)
    (by
      intro f hf
      simp only [List.mem_cons, List.not_mem_nil, or_false] at hf
      rcases hf with rfl | rfl <;> decide)
    (by set_option maxRecDepth 8000 in rfl)

end QP
